import Mathlib

/-!
Verification development for the asev dispatch engine (actorx).

Shallow embedding of the two source files:
  src/actorx/asev/ev_service.hpp   (class ev_service)
  src/include/asev/detail/worker.hpp (class worker)

Modelling conventions:
  * machine integers (size_t, long) become Nat / Int; `long expected_pworks`
    is signed in the source and is modelled as Int;
  * an event is modelled by the observable behaviour of its virtual
    handle(thrctx): whether it throws, and the auto-release bool it returns
    when it does not throw;
  * MPSC queues become Lists in FIFO order (push appends at the back, pop
    takes the head), matching the stated queue contract;
  * the always-false assertion executed in every catch-all block
    (ACTORX_ENSURES(false) / Ensures(false)) terminates the program, as the
    specification states; a computation that reaches it is modelled by the
    outcome fatalAssert (for drains) or by Option.none (for do_work), so
    that no value flows out of that branch;
  * atomic memory orders (acq_rel, release, relaxed) are comments on the
    sequential model.
-/

namespace Asev

/-- Observable behaviour of one event: whether handle(thrctx) throws, and
the auto-release flag it returns when it does not throw. -/
structure EventB where
  handleThrows : Bool
  autoRelease : Bool
deriving DecidableEq, Repr

/-- Outcome of a drain loop: on normal exit, the number of events counted,
the events released back to their pool, and the events whose ownership was
taken by the handler; fatalAssert models reaching the always-false
assertion in the catch-all block, which terminates the program. -/
inductive DrainOutcome where
  | ok (works : Nat) (released : List EventB) (retained : List EventB)
  | fatalAssert
deriving DecidableEq, Repr

/-- worker::work(thrctx) from src/include/asev/detail/worker.hpp lines
59-90: pop events until the queue returns null; for each event increment
works, call handle(thrctx) in a try block whose catch-all runs
Ensures(false); if handle returned true, release the event back to its
pool. Returns works. -/
def work : List EventB → DrainOutcome
  | [] => DrainOutcome.ok 0 [] []
  | ev :: rest =>
    if ev.handleThrows then DrainOutcome.fatalAssert
    else
      match work rest with
      | DrainOutcome.ok n rel ret =>
        if ev.autoRelease then DrainOutcome.ok (n + 1) (ev :: rel) ret
        else DrainOutcome.ok (n + 1) rel (ev :: ret)
      | DrainOutcome.fatalAssert => DrainOutcome.fatalAssert

/-- The drain loops for lifecycle queues in ev_service.hpp: the tstart
loop (trun, lines 435-457), the texit loop (the gsl::finally callback,
lines 460-486) and the tsegv drain in run (lines 335-359). All three have
the same shape as worker::work: pop until null, handle inside a try block
whose catch-all runs ACTORX_ENSURES(false), release when handle returned
true; the tsegv loop additionally counts the drained events. -/
def drain_lifecycle : List EventB → DrainOutcome
  | [] => DrainOutcome.ok 0 [] []
  | ev :: rest =>
    if ev.handleThrows then DrainOutcome.fatalAssert
    else
      match drain_lifecycle rest with
      | DrainOutcome.ok n rel ret =>
        if ev.autoRelease then DrainOutcome.ok (n + 1) (ev :: rel) ret
        else DrainOutcome.ok (n + 1) rel (ev :: ret)
      | DrainOutcome.fatalAssert => DrainOutcome.fatalAssert

/-- ev_service::select_strand_index, ev_service.hpp lines 661-672, as a
function of (worker_num, current counter) returning (result, new counter):
load curr_sndidx (relaxed), keep it as the result, increment, wrap to 0
when the incremented value reaches worker_num, store back (relaxed). -/
def select_strand_index (worker_num curr_sndidx : Nat) : Nat × Nat :=
  let sndidx := curr_sndidx
  let result := sndidx
  let sndidx := sndidx + 1
  let sndidx := if sndidx ≥ worker_num then 0 else sndidx
  (result, sndidx)

/-- Value of curr_sndidx after n successive calls to select_strand_index,
starting from its constructor value 0 (ev_service.hpp line 85). -/
def sndidxAfter (worker_num : Nat) : Nat → Nat
  | 0 => 0
  | n + 1 => (select_strand_index worker_num (sndidxAfter worker_num n)).2

/-- detail::worker (worker.hpp lines 22-95): an index and one MPSC event
queue, modelled in FIFO order. -/
structure Worker where
  index : Nat
  queue : List EventB
deriving DecidableEq, Repr

/-- worker::push_event (worker.hpp lines 54-57): que_.push(ev), appended
at the back of the FIFO. -/
def push_event (w : Worker) (ev : EventB) : Worker :=
  { w with queue := w.queue ++ [ev] }

/-- Per-thread data of the dispatcher (ev_service.hpp lines 702-725): the
pending-work counter cnt_, the stop flag stop_, and the three lifecycle
queues. The mutex, condition variable, thrctx pointer and host coroutine
context carry no state observable by the claims and are omitted. -/
structure ThreadData where
  cnt : Nat
  stop : Bool
  tstart_que : List EventB
  texit_que : List EventB
  tsegv_que : List EventB
deriving DecidableEq, Repr

/-- thread_data constructed at ev_service.hpp lines 704-708: counter
fresh, stop_ = false, queues empty. -/
def mkThreadData : ThreadData :=
  { cnt := 0, stop := false, tstart_que := [], texit_que := [], tsegv_que := [] }

/-- State of one ev_service (ev_service.hpp lines 680-734): thread data
deque, worker deque, workshop of atomic slots (a slot is none while some
thread holds the claim on that worker), the round-robin counter
curr_sndidx_, and the registry of thread-local pools local_pool_queue_
(pools modelled by opaque ids). -/
structure EvService where
  thread_data_list : List ThreadData
  worker_list : List Worker
  workshop : List (Option Worker)
  curr_sndidx : Nat
  local_pool_queue : List Nat
deriving DecidableEq, Repr

/-- In-place update of the i-th element of a list, modelling writes
through operator[] on the deques. -/
def updateAt : Nat → (α → α) → List α → List α
  | _, _, [] => []
  | 0, f, x :: xs => f x :: xs
  | i + 1, f, x :: xs => x :: updateAt i f xs

/-- The ev_service constructor (ev_service.hpp lines 82-138) restricted to
the state the claims observe: thread_num is replaced by 1 when it is 0
(line 113); worker_num is raised to thread_num when smaller (lines
116-119); thread_num thread_data records are built (lines 122-125);
worker_num workers with indices 0..worker_num-1 are built (lines 128-131);
a pointer to each worker is pushed into workshop_ in order (lines
134-137); curr_sndidx_ starts at 0 (line 85). -/
def ev_service_ctor (thread_num worker_num : Nat) : EvService :=
  let tn := if thread_num = 0 then 1 else thread_num
  let wn := if worker_num < tn then tn else worker_num
  let workers := (List.range wn).map (fun i => Worker.mk i [])
  { thread_data_list := (List.range tn).map (fun _ => mkThreadData)
    worker_list := workers
    workshop := workers.map some
    curr_sndidx := 0
    local_pool_queue := [] }

/-- ev_service::get_thread_num (lines 195-198): thread_data_list_.size(). -/
def get_thread_num (s : EvService) : Nat :=
  s.thread_data_list.length

/-- ev_service::get_worker_num (lines 201-204): worker_list_.size(). -/
def get_worker_num (s : EvService) : Nat :=
  s.worker_list.length

/-- ev_service::notify_thread (lines 654-659): thridx = wkridx mod
thread_data_list_.size(); that thread runs cnt_.synchronized_incr(mtx, cv),
which increments the counter and signals the condition variable under the
mutex (the signal itself has no state in the model). -/
def notify_thread (s : EvService) (wkridx : Nat) : EvService :=
  { s with
    thread_data_list :=
      updateAt (wkridx % s.thread_data_list.length)
        (fun t => { t with cnt := t.cnt + 1 }) s.thread_data_list }

/-- The first line of ev_service::pri_async (line 601):
worker_list_[target].push_event(ev). -/
def evs_push (s : EvService) (target : Nat) (ev : EventB) : EvService :=
  { s with worker_list := updateAt target (fun w => push_event w ev) s.worker_list }

/-- ev_service::pri_async (lines 599-603): push the event onto the target
worker queue, then notify the prior thread of that worker. -/
def pri_async (s : EvService) (target : Nat) (ev : EventB) : EvService :=
  notify_thread (evs_push s target ev) target

/-- ev_service::async (lines 233-236): pri_async(select_strand_index(), ev).
select_strand_index reads and writes curr_sndidx_ before pri_async runs. -/
def async (s : EvService) (ev : EventB) : EvService :=
  let r := select_strand_index s.worker_list.length s.curr_sndidx
  pri_async { s with curr_sndidx := r.2 } r.1 ev

/-- First loop of ev_service::stop (lines 393-396): set the stop_ flag of
every thread_data (relaxed store). -/
def set_stop_flags (s : EvService) : EvService :=
  { s with thread_data_list := s.thread_data_list.map (fun t => { t with stop := true }) }

/-- Second loop of ev_service::stop (lines 398-401): run
cnt_.synchronized_incr(mtx, cv) on every thread_data. -/
def synchronized_incr_all (s : EvService) : EvService :=
  { s with thread_data_list := s.thread_data_list.map (fun t => { t with cnt := t.cnt + 1 }) }

/-- ev_service::stop (lines 390-402): the flag loop runs to completion
before the increment loop starts. -/
def stop (s : EvService) : EvService :=
  synchronized_incr_all (set_stop_flags s)

/-- The state do_work touches: the one workshop slot workshop_[wkridx]
(none while some thread holds the claim), and the current-worker pointer
of the calling thrctx. -/
structure DoWorkCtx where
  slot : Option Worker
  current : Option Worker
deriving DecidableEq, Repr

/-- ev_service::do_work (ev_service.hpp lines 562-586): exchange the slot
with null (acq_rel); if the observed value is null return 0; otherwise set
the current worker of thrctx, run worker::work under a gsl::finally that
on every exit resets the current worker to null and stores the worker
pointer back into the slot (release). After the drain the worker queue is
empty. Option.none models the run not returning because a throwing handle
reached the always-false assertion inside worker::work. -/
def do_work (c : DoWorkCtx) : Option (Nat × DoWorkCtx) :=
  match c.slot with
  | none => some (0, { slot := none, current := c.current })
  | some wkr =>
    match work wkr.queue with
    | DrainOutcome.ok n _ _ =>
      some (n, { slot := some { wkr with queue := [] }, current := none })
    | DrainOutcome.fatalAssert => none

/-- The prior-worker sweep of ev_service::trun (lines 539-546), with the
accumulator pworks and the signed hint expected_pworks:
  for n in priors:
    pworks += do_work(n, thrctx, work_level::prior);
    expected_pworks -= pworks;
    expected_pworks -= worker_list_[n].fetch_sworks();
The per-worker effects are abstracted into two oracles: dwork n is the
count that do_work(n, thrctx, prior) returns, and sworks n is the value
worker_list_[n].fetch_sworks() returns. Modelled from the spec:
fetch_sworks belongs to the worker variant that ev_service.hpp includes
(actorx/asev/detail/worker.hpp), which is not among the sources; the spec
describes it as the per-worker sworks counter that the sweep subtracts. -/
def trun_prior_sweep (dwork sworks : Nat → Nat) :
    List Nat → Nat → Int → Nat × Int
  | [], pworks, expected_pworks => (pworks, expected_pworks)
  | n :: rest, pworks, expected_pworks =>
    let pworks := pworks + dwork n
    let expected_pworks := expected_pworks - (pworks : Int)
    let expected_pworks := expected_pworks - (sworks n : Int)
    trun_prior_sweep dwork sworks rest pworks expected_pworks

/-- One while-loop of the destructor shape: pop_unique until the queue
returns null, the pool_delete deleter returning each event to its pool.
Arguments: the queue and the events returned to pools so far; result: the
queue when the loop exits and the accumulated returned events. -/
def drain_to_pool : List EventB → List EventB → List EventB × List EventB
  | [], returned => ([], returned)
  | ev :: rest, returned => drain_to_pool rest (returned ++ [ev])

/-- The per-thread part of the ev_service destructor (lines 143-162):
drain the tstart queue, then the texit queue, through pop_unique with
pool_delete. -/
def dtor_thread (t : ThreadData) : ThreadData × List EventB :=
  let r1 := drain_to_pool t.tstart_que []
  let r2 := drain_to_pool t.texit_que []
  ({ t with tstart_que := r1.1, texit_que := r2.1 }, r1.2 ++ r2.2)

/-- The worker destructor (worker.hpp lines 36-46): pop_unique with
pool_delete until the queue returns null; every residual event goes back
to its pool. -/
def worker_dtor (w : Worker) : List EventB :=
  (drain_to_pool w.queue []).2

/-- The ev_service destructor (ev_service.hpp lines 140-191): for each
thread_data drain the tstart then the texit queue (lines 143-162), clear
workshop_ then worker_list_ (lines 176-177; clearing worker_list_ runs the
worker destructor on every worker), and drain local_pool_queue_ (lines
179-186). Result: the final state and every event returned to a pool, in
drain order. -/
def ev_service_dtor (s : EvService) : EvService × List EventB :=
  let tds := s.thread_data_list.map dtor_thread
  let worker_returned := (s.worker_list.map worker_dtor).flatten
  ({ s with
      thread_data_list := tds.map Prod.fst
      worker_list := []
      workshop := []
      local_pool_queue := [] },
    (tds.map Prod.snd).flatten ++ worker_returned)

/-! ## Helper lemmas -/

theorem select_wrap_eq_mod (wn n : Nat) (h : 1 ≤ wn) :
    (if n % wn + 1 ≥ wn then 0 else n % wn + 1) = (n + 1) % wn := by
  have hlt : n % wn < wn := Nat.mod_lt _ h
  have hmod : (n % wn + 1) % wn = (n + 1) % wn := Nat.mod_add_mod n wn 1
  by_cases hc : n % wn + 1 ≥ wn
  · have heq : n % wn + 1 = wn := Nat.le_antisymm hlt hc
    simp only [hc, if_pos]
    rw [← hmod, heq, Nat.mod_self]
  · have hlt2 : n % wn + 1 < wn := Nat.lt_of_not_le hc
    simp only [hc, if_neg, not_false_iff]
    rw [← hmod, Nat.mod_eq_of_lt hlt2]

theorem sndidxAfter_eq_mod (wn : Nat) (h : 1 ≤ wn) :
    ∀ n, sndidxAfter wn n = n % wn := by
  intro n
  induction n with
  | zero => simp [sndidxAfter, Nat.zero_mod]
  | succ k ih =>
    show (select_strand_index wn (sndidxAfter wn k)).2 = (k + 1) % wn
    rw [ih]
    show (if k % wn + 1 ≥ wn then 0 else k % wn + 1) = (k + 1) % wn
    exact select_wrap_eq_mod wn k h

theorem length_updateAt (i : Nat) (f : α → α) (l : List α) :
    (updateAt i f l).length = l.length := by
  induction l generalizing i with
  | nil => cases i <;> rfl
  | cons x xs ih => cases i with
    | zero => rfl
    | succ j => simpa [updateAt] using ih j

theorem getElem?_updateAt_self (i : Nat) (f : α → α) (l : List α) :
    (updateAt i f l)[i]? = (l[i]?).map f := by
  induction l generalizing i with
  | nil => cases i <;> rfl
  | cons x xs ih => cases i with
    | zero => simp [updateAt]
    | succ j => simpa [updateAt] using ih j

theorem getElem?_updateAt_ne (i j : Nat) (f : α → α) (l : List α) (h : j ≠ i) :
    (updateAt i f l)[j]? = l[j]? := by
  induction l generalizing i j with
  | nil => cases i <;> rfl
  | cons x xs ih =>
    cases i with
    | zero =>
      cases j with
      | zero => exact absurd rfl h
      | succ k => simp [updateAt]
    | succ i2 =>
      cases j with
      | zero => simp [updateAt]
      | succ k =>
        simpa [updateAt] using ih i2 k (fun he => h (congrArg Nat.succ he))

theorem work_spec (q : List EventB) (h : ∀ e ∈ q, e.handleThrows = false) :
    work q = DrainOutcome.ok q.length
      (q.filter (fun e => e.autoRelease)) (q.filter (fun e => !e.autoRelease)) := by
  induction q with
  | nil => rfl
  | cons ev rest ih =>
    have he : ev.handleThrows = false := h ev (List.mem_cons_self ev rest)
    have hrest : ∀ e ∈ rest, e.handleThrows = false :=
      fun e hm => h e (List.mem_cons_of_mem ev hm)
    by_cases ha : ev.autoRelease = true
    · simp [work, he, ih hrest, ha, List.filter]
    · have ha2 : ev.autoRelease = false := by simpa using ha
      simp [work, he, ih hrest, ha2, List.filter]

theorem drain_to_pool_spec (q acc : List EventB) :
    drain_to_pool q acc = ([], acc ++ q) := by
  induction q generalizing acc with
  | nil => simp [drain_to_pool]
  | cons ev rest ih => simp [drain_to_pool, ih]

theorem dtor_thread_eq (t : ThreadData) :
    dtor_thread t
      = ({ t with tstart_que := [], texit_que := [] }, t.tstart_que ++ t.texit_que) := by
  simp [dtor_thread, drain_to_pool_spec]

theorem worker_dtor_eq : worker_dtor = fun w => w.queue := by
  funext w
  simp [worker_dtor, drain_to_pool_spec]

theorem scanl_sum_head (f : Nat → Nat → Nat) (b : Nat) (l : List Nat) :
    (List.scanl f b l).sum = b + (List.scanl f b l).tail.sum := by
  cases l with
  | nil => simp
  | cons a t => rw [List.scanl_cons]; simp

theorem trun_prior_sweep_general (d s : Nat → Nat) (pr : List Nat) :
    ∀ (p : Nat) (e : Int),
      trun_prior_sweep d s pr p e
        = (p + (pr.map d).sum,
           e - ((List.scanl (· + ·) p (pr.map d)).tail.sum : Int)
             - ((pr.map s).sum : Int)) := by
  induction pr with
  | nil => intro p e; simp [trun_prior_sweep]
  | cons n rest ih =>
    intro p e
    show trun_prior_sweep d s rest (p + d n)
        (e - ((p + d n : Nat) : Int) - (s n : Int)) = _
    rw [ih]
    rw [List.map_cons, List.map_cons, List.scanl_cons]
    rw [List.sum_cons, List.sum_cons]
    have htail : ([p] ++ List.scanl (· + ·) (p + d n) (rest.map d)).tail
        = List.scanl (· + ·) (p + d n) (rest.map d) := by simp
    rw [htail, scanl_sum_head (· + ·) (p + d n) (rest.map d)]
    refine Prod.ext ?_ ?_
    · show p + d n + (rest.map d).sum = p + (d n + (rest.map d).sum)
      omega
    · show e - ((p + d n : Nat) : Int) - ((s n : Nat) : Int)
          - ((List.scanl (· + ·) (p + d n) (rest.map d)).tail.sum : Int)
          - ((rest.map s).sum : Int)
        = e - (((p + d n) + (List.scanl (· + ·) (p + d n) (rest.map d)).tail.sum : Nat) : Int)
          - ((s n + (rest.map s).sum : Nat) : Int)
      push_cast
      ring

/-! ## Claims -/

/-- C1: strand selection for generic submissions is round-robin: starting
from the constructor value 0 of curr_sndidx, the n-th call to
select_strand_index returns n mod worker_num, which lies in
[0, worker_num); the counter advances by one and wraps to 0 at worker_num,
so successive submissions (async, whose strand comes from
select_strand_index, as do post and spawn through pri_post and pri_spawn)
target strands 0, 1, ..., worker_num-1, 0, ... cyclically. -/
theorem select_strand_index_round_robin (wn n : Nat) (h : 1 ≤ wn) :
    sndidxAfter wn n = n % wn
    ∧ (select_strand_index wn (sndidxAfter wn n)).1 = n % wn
    ∧ (select_strand_index wn (sndidxAfter wn n)).1 < wn
    ∧ (select_strand_index wn (sndidxAfter wn n)).2 = (n + 1) % wn
    ∧ (∀ (s : EvService) (ev : EventB),
        s.worker_list.length = wn → s.curr_sndidx = sndidxAfter wn n →
          (async s ev).curr_sndidx = (n + 1) % wn
          ∧ ((async s ev).worker_list)[n % wn]?
              = (s.worker_list[n % wn]?).map (fun w => push_event w ev)) := by
  have hA : sndidxAfter wn n = n % wn := sndidxAfter_eq_mod wn h n
  have hsel2 : (select_strand_index wn (sndidxAfter wn n)).2 = (n + 1) % wn := by
    rw [hA]
    exact select_wrap_eq_mod wn n h
  refine ⟨hA, hA, ?_, hsel2, ?_⟩
  · show sndidxAfter wn n < wn
    rw [hA]; exact Nat.mod_lt _ h
  · intro s ev hlen hcur
    constructor
    · show (async s ev).curr_sndidx = (n + 1) % wn
      simp only [async, pri_async, notify_thread, evs_push]
      rw [hlen, hcur]
      exact hsel2
    · simp only [async, pri_async, notify_thread, evs_push]
      rw [hlen, hcur, hA]
      exact getElem?_updateAt_self (n % wn) (fun w => push_event w ev) s.worker_list

/-- C1 witness: three workers, fourth submission targets strand 1. -/
theorem select_strand_index_round_robin_witness :
    (select_strand_index 3 (sndidxAfter 3 4)).1 = 4 % 3 :=
  (select_strand_index_round_robin 3 4 (by decide)).2.1

/-- C2: worker::work(thrctx) drains the queue to exhaustion, invoking
handle(thrctx) on each popped event, releasing an event back to its pool
exactly when handle returned true and retaining it (ownership with the
handler) when handle returned false, and returns the number of events
drained (here: when no handle throws). -/
theorem worker_work_drains_all (q : List EventB)
    (h : ∀ e ∈ q, e.handleThrows = false) :
    work q = DrainOutcome.ok q.length
      (q.filter (fun e => e.autoRelease)) (q.filter (fun e => !e.autoRelease)) :=
  work_spec q h

/-- C2 witness: a two-event queue, one auto-release and one not. -/
theorem worker_work_drains_all_witness :
    work [EventB.mk false true, EventB.mk false false]
      = DrainOutcome.ok 2 [EventB.mk false true] [EventB.mk false false] :=
  worker_work_drains_all [EventB.mk false true, EventB.mk false false] (by decide)

/-- C3: do_work claims the worker by exchanging the workshop slot with
null; if the observed value was null it returns 0 with the state
unchanged; if it was non-null, on the exit of do_work the slot is restored
to the worker pointer (its queue now drained) and the current worker of
thrctx is reset to null, the restore storing the post-work worker. -/
theorem do_work_claim_release_protocol (c : DoWorkCtx) :
    (c.slot = none → do_work c = some (0, c))
    ∧ (∀ w, c.slot = some w → (∀ e ∈ w.queue, e.handleThrows = false) →
        do_work c = some (w.queue.length,
          { slot := some { index := w.index, queue := [] }, current := none })) := by
  constructor
  · intro hn
    cases c with
    | mk slot current =>
      cases hn
      rfl
  · intro w hw hq
    cases c with
    | mk slot current =>
      cases hw
      show do_work { slot := some w, current := current } = _
      simp [do_work, work_spec w.queue hq]

/-- C3 witness: a slot holding worker 0 with one queued event. -/
theorem do_work_claim_release_protocol_witness :
    do_work { slot := some (Worker.mk 0 [EventB.mk false true]), current := none }
      = some (1, { slot := some (Worker.mk 0 []), current := none }) :=
  (do_work_claim_release_protocol
      { slot := some (Worker.mk 0 [EventB.mk false true]), current := none }).2
    (Worker.mk 0 [EventB.mk false true]) rfl (by decide)

/-- C4 counterexample: the prior sweep subtracts the accumulated total
pworks at every iteration, not the per-worker drained count. With priors
[0, 1], drained counts 1 and 0 and zero sworks, starting from
expected_pworks = 0, the sweep leaves -2, while the claim (subtract each
worker's own drained count plus its sworks, once) predicts -1. -/
theorem trun_prior_sweep_counterexample :
    (trun_prior_sweep (fun n => if n = 0 then 1 else 0) (fun _ => 0) [0, 1] 0 0).2 = -2
    ∧ (0 : Int) - (((1 + 0) + (0 + 0) : Nat) : Int) = -1
    ∧ ((-2 : Int) ≠ -1) := by
  refine ⟨by decide, by decide, by decide⟩

/-- C4 amended: after sweeping the priors, expected_pworks has decreased
by the sum over prior positions of the accumulated drained total up to and
including that position (the nonempty prefix sums of the drained counts)
plus every prior worker's sworks, starting from accumulator pworks = 0. -/
theorem trun_prior_sweep_accumulated (d s : Nat → Nat) (pr : List Nat) (e : Int) :
    (trun_prior_sweep d s pr 0 e).2
      = e - (((List.scanl (· + ·) (0 : Nat) (pr.map d)).tail.sum : Nat) : Int)
          - (((pr.map s).sum : Nat) : Int) := by
  rw [trun_prior_sweep_general d s pr 0 e]

/-- C5 counterexample: the ev_service destructor drains only the tstart
and texit queues; a residual tsegv event survives destruction. One thread
whose tsegv queue holds one event: after the destructor the tsegv queue
still holds that event, so it is not the empty queue the claim requires. -/
theorem ev_service_dtor_tsegv_counterexample :
    ((ev_service_dtor
        (EvService.mk [ThreadData.mk 0 false [] [] [EventB.mk false true]] [] [] 0 [])).1.thread_data_list.map
      (fun t => t.tsegv_que)) = [[EventB.mk false true]]
    ∧ ([[EventB.mk false true]] : List (List EventB)) ≠ [[]] := by
  exact ⟨by decide, by decide⟩

/-- C5 amended: destruction of the dispatcher drains every thread's
tstart and texit queues and the registered per-thread pools, and clearing
worker_list_ runs the worker destructor, which drains residual queued
events back into their pools; the events returned to pools are exactly the
tstart, texit and worker queue contents. The tsegv queues are not drained:
they are left unchanged by the destructor. -/
theorem ev_service_dtor_drains (s : EvService) :
    ((ev_service_dtor s).1.thread_data_list.map (fun t => t.tstart_que))
        = s.thread_data_list.map (fun _ => [])
    ∧ ((ev_service_dtor s).1.thread_data_list.map (fun t => t.texit_que))
        = s.thread_data_list.map (fun _ => [])
    ∧ ((ev_service_dtor s).1.thread_data_list.map (fun t => t.tsegv_que))
        = s.thread_data_list.map (fun t => t.tsegv_que)
    ∧ (ev_service_dtor s).1.worker_list = []
    ∧ (ev_service_dtor s).1.workshop = []
    ∧ (ev_service_dtor s).1.local_pool_queue = []
    ∧ (ev_service_dtor s).2
        = (s.thread_data_list.map (fun t => t.tstart_que ++ t.texit_que)).flatten
          ++ (s.worker_list.map (fun w => w.queue)).flatten := by
  refine ⟨?_, ?_, ?_, rfl, rfl, rfl, ?_⟩
  · simp [ev_service_dtor, dtor_thread_eq, List.map_map, Function.comp_def]
  · simp [ev_service_dtor, dtor_thread_eq, List.map_map, Function.comp_def]
  · simp [ev_service_dtor, dtor_thread_eq, List.map_map, Function.comp_def]
  · simp [ev_service_dtor, dtor_thread_eq, worker_dtor_eq, List.map_map, Function.comp_def]

/-- C6: pri_async to worker index target first pushes the event onto the
target worker queue and then notifies the prior thread of that worker,
thread target mod thread_num, by incrementing that thread's counter (and
signalling its condition variable under its mutex); every other worker
queue and every other thread counter is unchanged, as is curr_sndidx. -/
theorem pri_async_push_then_notify (s : EvService) (target : Nat) (ev : EventB)
    (j k : Nat) (hj : j ≠ target % s.thread_data_list.length) (hk : k ≠ target) :
    pri_async s target ev = notify_thread (evs_push s target ev) target
    ∧ ((pri_async s target ev).worker_list)[target]?
        = (s.worker_list[target]?).map (fun w => push_event w ev)
    ∧ ((pri_async s target ev).worker_list)[k]? = s.worker_list[k]?
    ∧ ((pri_async s target ev).thread_data_list)[target % s.thread_data_list.length]?
        = (s.thread_data_list[target % s.thread_data_list.length]?).map
            (fun t => { t with cnt := t.cnt + 1 })
    ∧ ((pri_async s target ev).thread_data_list)[j]? = s.thread_data_list[j]?
    ∧ (pri_async s target ev).curr_sndidx = s.curr_sndidx := by
  refine ⟨rfl, ?_, ?_, ?_, ?_, rfl⟩
  · simp only [pri_async, notify_thread, evs_push]
    exact getElem?_updateAt_self target (fun w => push_event w ev) s.worker_list
  · simp only [pri_async, notify_thread, evs_push]
    exact getElem?_updateAt_ne target k (fun w => push_event w ev) s.worker_list hk
  · simp only [pri_async, notify_thread, evs_push]
    exact getElem?_updateAt_self (target % s.thread_data_list.length)
      (fun t => { t with cnt := t.cnt + 1 }) s.thread_data_list
  · simp only [pri_async, notify_thread, evs_push]
    exact getElem?_updateAt_ne (target % s.thread_data_list.length) j
      (fun t => { t with cnt := t.cnt + 1 }) s.thread_data_list hj

/-- C6 witness: two threads, three workers, submission to worker 2
notifies thread 0 and leaves thread 1 untouched. -/
theorem pri_async_push_then_notify_witness :
    ((pri_async
        (EvService.mk [ThreadData.mk 0 false [] [] [], ThreadData.mk 0 false [] [] []]
          [Worker.mk 0 [], Worker.mk 1 [], Worker.mk 2 []] [] 0 [])
        2 (EventB.mk false true)).thread_data_list)[1]?
      = ((EvService.mk [ThreadData.mk 0 false [] [] [], ThreadData.mk 0 false [] [] []]
          [Worker.mk 0 [], Worker.mk 1 [], Worker.mk 2 []] [] 0 []).thread_data_list)[1]? :=
  (pri_async_push_then_notify
      (EvService.mk [ThreadData.mk 0 false [] [] [], ThreadData.mk 0 false [] [] []]
        [Worker.mk 0 [], Worker.mk 1 [], Worker.mk 2 []] [] 0 [])
      2 (EventB.mk false true) 1 0 (by decide) (by decide)).2.2.2.2.1

/-- C7: stop first sets the stop flag of every dispatcher thread, and only
after all flags are set performs a synchronized increment on every
thread's counter; after stop, every thread's stop flag is true and every
thread's counter has been incremented exactly once. -/
theorem stop_sets_flags_then_incr (s : EvService) (i : Nat) :
    stop s = synchronized_incr_all (set_stop_flags s)
    ∧ (stop s).thread_data_list
        = s.thread_data_list.map (fun t => { t with stop := true, cnt := t.cnt + 1 })
    ∧ ((stop s).thread_data_list)[i]?
        = (s.thread_data_list[i]?).map (fun t => { t with stop := true, cnt := t.cnt + 1 })
    ∧ ((stop s).thread_data_list.map (fun t => t.stop))
        = s.thread_data_list.map (fun _ => true) := by
  refine ⟨rfl, ?_, ?_, ?_⟩
  · show List.map _ (List.map _ s.thread_data_list) = _
    rw [List.map_map]
    exact rfl
  · show (List.map _ (List.map _ s.thread_data_list))[i]? = _
    rw [List.map_map, List.getElem?_map]
    cases s.thread_data_list[i]? with
    | none => rfl
    | some t => rfl
  · show List.map _ (List.map _ (List.map _ s.thread_data_list)) = _
    rw [List.map_map, List.map_map]
    exact rfl

/-- C8: the constructor raises worker_num to the effective thread count
when smaller, so get_worker_num is the requested worker_num when it is at
least the effective thread count and the effective thread count otherwise
(their maximum); exactly that many workers with stable indices
0..worker_num-1 are created, and the workshop holds a slot per worker, in
index order. -/
theorem ctor_effective_worker_num (tn wn : Nat) :
    get_worker_num (ev_service_ctor tn wn)
        = max wn (get_thread_num (ev_service_ctor tn wn))
    ∧ get_worker_num (ev_service_ctor tn wn)
        = (if get_thread_num (ev_service_ctor tn wn) ≤ wn then wn
           else get_thread_num (ev_service_ctor tn wn))
    ∧ (ev_service_ctor tn wn).worker_list
        = (List.range (get_worker_num (ev_service_ctor tn wn))).map (fun i => Worker.mk i [])
    ∧ (ev_service_ctor tn wn).workshop
        = (ev_service_ctor tn wn).worker_list.map some := by
  refine ⟨?_, ?_, ?_, rfl⟩
  · simp only [get_worker_num, get_thread_num, ev_service_ctor, List.length_map,
      List.length_range]
    split_ifs <;> omega
  · simp only [get_worker_num, get_thread_num, ev_service_ctor, List.length_map,
      List.length_range]
    split_ifs <;> omega
  · simp only [get_worker_num, ev_service_ctor, List.length_map, List.length_range]

/-- C9: a thrown exception from any event's handle is fatal: both in
worker::work and in the lifecycle drain loops (tstart, texit, tsegv) the
dispatch path catches it and executes the always-false assertion, so the
run terminates instead of propagating the exception or continuing to
dispatch (no ok outcome is produced). -/
theorem handle_exception_fatal (q : List EventB)
    (h : ∃ e ∈ q, e.handleThrows = true) :
    work q = DrainOutcome.fatalAssert
    ∧ drain_lifecycle q = DrainOutcome.fatalAssert := by
  induction q with
  | nil => simp at h
  | cons ev rest ih =>
    by_cases he : ev.handleThrows = true
    · exact ⟨by simp [work, he], by simp [drain_lifecycle, he]⟩
    · have he2 : ev.handleThrows = false := by simpa using he
      have hx : ∃ e ∈ rest, e.handleThrows = true := by
        rcases h with ⟨e, hmem, ht⟩
        rcases List.mem_cons.mp hmem with rfl | hm
        · exact absurd ht he
        · exact ⟨e, hm, ht⟩
      obtain ⟨h1, h2⟩ := ih hx
      exact ⟨by simp [work, he2, h1], by simp [drain_lifecycle, he2, h2]⟩

/-- C9 witness: a queue whose second event throws. -/
theorem handle_exception_fatal_witness :
    work [EventB.mk false true, EventB.mk true true] = DrainOutcome.fatalAssert :=
  (handle_exception_fatal [EventB.mk false true, EventB.mk true true] (by decide)).1

/-- C10: constructing with thread_num = 0 is normalized to one thread:
get_thread_num returns 1 then, get_thread_num is at least 1 for every
construction, and the effective worker count is then max(requested
worker_num, 1). -/
theorem ctor_zero_thread_num (wn tn : Nat) :
    get_thread_num (ev_service_ctor 0 wn) = 1
    ∧ 1 ≤ get_thread_num (ev_service_ctor tn wn)
    ∧ get_worker_num (ev_service_ctor 0 wn) = max wn 1 := by
  refine ⟨?_, ?_, ?_⟩
  · simp [get_thread_num, ev_service_ctor]
  · simp only [get_thread_num, ev_service_ctor, List.length_map, List.length_range]
    split_ifs <;> omega
  · simp only [get_worker_num, ev_service_ctor, List.length_map, List.length_range]
    split_ifs <;> omega

end Asev
